import Mathlib

/-!
Verification development for the MEOW server VM lifecycle and session
orchestration code (`src/app.js`, `src/pve.js`).  The JavaScript sources are
embedded shallowly: each Express handler becomes a pure function from an
explicit environment (the outcomes of the external hypervisor / SSH calls)
and an explicit state (the database rows plus a trace of hypervisor
operations, admitted queue units and SSH commands) to a result and a new
state.  The database helpers (`db.js`), the serialized queue (`queue.js`)
and the SSH transport (`ssh.js`) are not part of the provided sources; they
are modelled from the specification, as documented on each definition.
-/

namespace Meow

/-- JavaScript truthiness of a nullable string: `null`/`undefined` and the
empty string are falsy, every other string is truthy. -/
def jsTruthyStr : Option String → Bool
  | none => false
  | some s => !(s == "")

/-- Whether the first list is an initial segment of the second. -/
def leadEq : List Char → List Char → Bool
  | [], _ => true
  | _ :: _, [] => false
  | a :: as, b :: bs => a == b && leadEq as bs

/-- Character-level model of `String.prototype.startsWith`. -/
def strStartsWith (s pre : String) : Bool :=
  leadEq pre.toList s.toList

/-- Helper for `strIncludes`: does `p` occur in the list? -/
def includesAux (p : List Char) : List Char → Bool
  | [] => leadEq p []
  | c :: rest => leadEq p (c :: rest) || includesAux p rest

/-- Character-level model of `String.prototype.includes` (substring test). -/
def strIncludes (s pat : String) : Bool :=
  includesAux pat.toList s.toList

/-- Character-level model of `String.prototype.trim`: strip whitespace from
both ends. -/
def strTrim (s : String) : String :=
  String.mk (((s.toList.dropWhile Char.isWhitespace).reverse.dropWhile
    Char.isWhitespace).reverse)

/-- Character-level model of one-occurrence `String.prototype.replace`:
replace the first occurrence of `p` by `rep`. -/
def replaceFirstAux (p rep : List Char) : List Char → List Char
  | [] => []
  | c :: rest =>
    if leadEq p (c :: rest) then rep ++ (c :: rest).drop p.length
    else c :: replaceFirstAux p rep rest

/-- Model of `s.replace(pat, rep)` for a non-empty literal pattern. -/
def replaceFirst (s pat rep : String) : String :=
  String.mk (replaceFirstAux pat.toList rep.toList s.toList)

/-! ## Remote script execution (`src/ssh.js` transport, `executeScript` in `src/app.js`) -/

/-- Result of one SSH command: exit code, stdout, stderr. -/
structure SSHResult where
  code : Int
  stdout : String
  stderr : String
deriving Repr, DecidableEq

/-- An SSH transport oracle: for each command string, either the command's
result or a transport-level failure message.  Modelled from the spec:
`runSSH` (`src/ssh.js` is absent) opens a connection and runs one command,
returning exit code, stdout and stderr, or failing with a transport error. -/
def SshExec : Type := String → Except String SSHResult

/-- Connection info resolved for a student (`getStudentVmConn` result). -/
structure Conn where
  host : String
deriving Repr, DecidableEq

/-- The temporary path used for inline script content in `executeScript`:
`/tmp/${scriptType}_${Date.now()}.sh` (`src/app.js` line 81). -/
def tempPath (scriptType : String) (now : Nat) : String :=
  "/tmp/" ++ scriptType ++ "_" ++ toString now ++ ".sh"

/-- The command that transfers inline content to the VM
(`src/app.js` line 84): a quoted heredoc with fixed delimiter `EOFSCRIPT`. -/
def writeCmd (p content : String) : String :=
  "cat > " ++ p ++ " << \x27EOFSCRIPT\x27\n" ++ content ++ "\nEOFSCRIPT"

/-- The function `executeScript` (`src/app.js` lines 73-107), with the SSH calls issued
recorded as a trace.  The `rm -f` cleanup result is discarded, mirroring
`.catch(() => \x7b\x7d)` in the source.  The missing-connection error is
raised before the `try`, so it is not wrapped with the failure prefix. -/
def executeScript (conn : Option Conn) (exec : SshExec) (now : Nat)
    (scriptContent scriptPath : Option String) (scriptType : String) :
    Except String SSHResult × List String :=
  match conn with
  | none => (Except.error "VM 連線資訊不存在", [])
  | some _ =>
    if jsTruthyStr scriptContent then
      let content := scriptContent.getD ""
      let p := tempPath scriptType now
      let w := writeCmd p content
      match exec w with
      | Except.error e => (Except.error ("腳本執行失敗: " ++ e), [w])
      | Except.ok _ =>
        let c := "chmod +x " ++ p
        match exec c with
        | Except.error e => (Except.error ("腳本執行失敗: " ++ e), [w, c])
        | Except.ok _ =>
          let r := "sudo " ++ p
          match exec r with
          | Except.error e => (Except.error ("腳本執行失敗: " ++ e), [w, c, r])
          | Except.ok res => (Except.ok res, [w, c, r, "rm -f " ++ p])
    else if jsTruthyStr scriptPath then
      let r := "sudo " ++ scriptPath.getD ""
      match exec r with
      | Except.error e => (Except.error ("腳本執行失敗: " ++ e), [r])
      | Except.ok res => (Except.ok res, [r])
    else
      (Except.error "腳本執行失敗: 沒有可執行的腳本內容或路徑", [])

/-! ### Heredoc semantics

What the heredoc in `writeCmd` actually stores on the target: the lines of
the document strictly before the first line equal to the delimiter. -/

/-- Split a character list into lines at newline characters. -/
def splitLinesAux : List Char → List Char → List (List Char)
  | [], acc => [acc.reverse]
  | c :: cs, acc =>
    if c = '\n' then acc.reverse :: splitLinesAux cs []
    else splitLinesAux cs (c :: acc)

/-- The lines of a string. -/
def strLines (s : String) : List String :=
  (splitLinesAux s.toList []).map (fun l => String.mk l)

/-- Bash heredoc body: lines strictly before the first delimiter line. -/
def heredocBodyLines (delim : String) : List String → List String
  | [] => []
  | l :: ls => if l = delim then [] else l :: heredocBodyLines delim ls

/-- The lines actually written to the temporary file by `writeCmd`:
the heredoc document is `content ++ "\n" ++ "EOFSCRIPT"`, terminated at the
first `EOFSCRIPT` line. -/
def writtenLines (content : String) : List String :=
  heredocBodyLines "EOFSCRIPT" (strLines (content ++ "\nEOFSCRIPT"))

/-- The temporary path as a function of an execution identity: the source
derives the name only from the script type and the current millisecond
(`Date.now()`), with no per-execution component. -/
def tempPathOfExec (_execId : Nat) (scriptType : String) (now : Nat) : String :=
  tempPath scriptType now

/-! ## Hypervisor client (`src/pve.js`) -/

/-- Status of a hypervisor task as reported by `GET .../tasks/:id/status`:
either still running, or stopped with an exit status string. -/
inductive TaskStatus where
  | running : TaskStatus
  | stopped (exitstatus : String) : TaskStatus
deriving Repr, DecidableEq

/-- The failures of `waitForTask`: a stopped task with a non-`"OK"` exit
status (`任務失敗`), or the timeout budget elapsing (`任務超時`). -/
inductive TaskError where
  | taskFailed (exitstatus : String) : TaskError
  | taskTimeout : TaskError
deriving Repr, DecidableEq

/-- The polling loop of `waitForTask` (`src/pve.js` lines 297-316).
`poll i` is the status reported by the `i`-th status query; iteration `i`
happens at elapsed time `2000 * i` ms (the loop sleeps 2000 ms between
polls), and the loop body runs only while the elapsed time is below
`timeout`.  The fuel argument counts the remaining loop iterations; it is
chosen in `waitForTask` so that it runs out exactly when the time guard
fails, hence the `fuel = 0` branch coincides with the guard-false branch. -/
def waitLoop (poll : Nat → TaskStatus) (timeout : Nat) : Nat → Nat → Except TaskError Bool
  | 0, _ => Except.error TaskError.taskTimeout
  | fuel + 1, i =>
    if 2000 * i < timeout then
      match poll i with
      | TaskStatus.stopped es =>
        if es = "OK" then Except.ok true
        else Except.error (TaskError.taskFailed es)
      | TaskStatus.running => waitLoop poll timeout fuel (i + 1)
    else Except.error TaskError.taskTimeout

/-- The function `waitForTask(taskId, ticket, timeout)`: poll every 2000 ms until the
task stops or the timeout elapses.  `(timeout + 1999) / 2000` is the number
of iterations `i` with `2000 * i < timeout`. -/
def waitForTask (poll : Nat → TaskStatus) (timeout : Nat) : Except TaskError Bool :=
  waitLoop poll timeout ((timeout + 1999) / 2000) 0

/-- Variant of `waitForTask` with its default budget of 300000 ms (5 minutes). -/
def waitForTaskDefault (poll : Nat → TaskStatus) : Except TaskError Bool :=
  waitForTask poll 300000

/-! ### `getVMIP` (`src/pve.js` lines 410-433) -/

/-- One entry of a guest-agent interface's `ip-addresses` array. -/
structure IpAddr where
  addrType : String
  addr : String
deriving Repr, DecidableEq

/-- One guest-agent network interface; `ip-addresses` may be absent. -/
structure NetIf where
  ipAddrs : Option (List IpAddr)
deriving Repr, DecidableEq

/-- The guest-agent part of a VM status: `status.agent` may be absent, and
so may `status.agent['network-interfaces']`. -/
structure VMStatus where
  agent : Option (Option (List NetIf))
deriving Repr, DecidableEq

/-- Inner loop of `getVMIP`: first address of type `ipv4` not starting with
`127.` in one interface's list. -/
def pickIp : List IpAddr → Option String
  | [] => none
  | ip :: rest =>
    if ip.addrType = "ipv4" && !(strStartsWith ip.addr "127.") then some ip.addr
    else pickIp rest

/-- Outer loop of `getVMIP` over the interfaces; an interface with a missing
or empty `ip-addresses` array is skipped. -/
def findIp : List NetIf → Option String
  | [] => none
  | f :: rest =>
    match f.ipAddrs with
    | none => findIp rest
    | some ips =>
      if ips.length > 0 then
        match pickIp ips with
        | some a => some a
        | none => findIp rest
      else findIp rest

/-- The function `getVMIP(vmid)`: from the result of the status query (which may itself
fail), the first non-loopback IPv4 address, or `null`.  Errors of the
status query are caught and turned into `null`. -/
def getVMIP (st : Except String VMStatus) : Option String :=
  match st with
  | Except.error _ => none
  | Except.ok status =>
    match status.agent with
    | none => none
    | some none => none
    | some (some ifaces) => findIp ifaces

/-- All addresses of a list of interfaces, in report order. -/
def allIps : List NetIf → List IpAddr
  | [] => []
  | f :: rest => f.ipAddrs.getD [] ++ allIps rest

/-! ## Data model (spec section 3, persisted by the absent `src/db.js`) -/

/-- A question (exercise) row: ordering is the list position in the
questions table, fault/check content is inline script or filesystem path. -/
structure Question where
  id : Nat
  title : String
  body : String
  difficulty : String
  fault_id : String
  fault_script : Option String
  fault_path : Option String
  check_id : String
  check_script : Option String
  check_path : Option String
  enabled : Bool
deriving Repr, DecidableEq

/-- A VM assignment row (one per student once provisioned). -/
structure VmAssignment where
  studentId : Nat
  vmid : Nat
  vm_name : String
  vm_ip : Option String
  snapshot_name : String
deriving Repr, DecidableEq

/-- A progress row: the student's current question and the started flag. -/
structure Progress where
  current_qid : Nat
  started : Bool
deriving Repr, DecidableEq

/-- An attempt row (append-only log). -/
structure Attempt where
  studentId : Nat
  question_id : Nat
  passed : Bool
  stdout : String
  stderr : String
  output : String
deriving Repr, DecidableEq

/-- A user row. -/
structure User where
  id : Nat
  username : String
  role : String
deriving Repr, DecidableEq

/-- The database state. -/
structure Db where
  questions : List Question
  assignments : List VmAssignment
  progress : Nat → Progress
  attempts : List Attempt
  users : List User
  nextUserId : Nat

/-- Modelled from the spec: `getVmAssignment(studentId) → VmAssignment|null`
(`src/db.js` is absent). -/
def getVmAssignment (db : Db) (sid : Nat) : Option VmAssignment :=
  db.assignments.find? (fun a => a.studentId == sid)

/-- Modelled from the spec: `createVmAssignment(studentId, vmid, name, ip,
snapshotName)` inserts one assignment row (`src/db.js` is absent). -/
def createVmAssignment (db : Db) (sid vmid : Nat) (name : String)
    (ip : Option String) (snap : String) : Db :=
  { db with assignments := db.assignments ++ [⟨sid, vmid, name, ip, snap⟩] }

/-- Modelled from the spec: `getQuestions(onlyEnabled)` returns the ordered
question list, filtered to enabled rows when requested (`src/db.js` is
absent). -/
def getQuestions (db : Db) (onlyEnabled : Bool) : List Question :=
  if onlyEnabled then db.questions.filter (fun q => q.enabled) else db.questions

/-- Modelled from the spec: `getQuestion(id)` (`src/db.js` is absent). -/
def getQuestion (db : Db) (qid : Nat) : Option Question :=
  db.questions.find? (fun q => q.id == qid)

/-- Modelled from the spec: `getProgress(studentId)`, one row per student
(`src/db.js` is absent). -/
def getProgress (db : Db) (sid : Nat) : Progress :=
  db.progress sid

/-- Modelled from the spec: `updateProgress(studentId, exerciseId, started)`
(`src/db.js` is absent). -/
def updateProgress (db : Db) (sid qid : Nat) (started : Bool) : Db :=
  { db with progress := fun x => if x == sid then ⟨qid, started⟩ else db.progress x }

/-- Modelled from the spec: `recordAttempt` appends one attempt row
(`src/db.js` is absent). -/
def recordAttempt (db : Db) (sid qid : Nat) (passed : Bool)
    (stdout stderr output : String) : Db :=
  { db with attempts := db.attempts ++ [⟨sid, qid, passed, stdout, stderr, output⟩] }

/-- The attempts of a student on a question, in insertion order. -/
def attemptsFor (db : Db) (sid qid : Nat) : List Attempt :=
  db.attempts.filter (fun a => a.studentId == sid && a.question_id == qid)

/-- Modelled from the spec: `getExerciseStatus(studentId, exerciseId) →
passed|failed|untried` — `passed` when the latest attempt for that pair has
`passed = true` (`src/db.js` is absent; spec sections 4.4 and 6). -/
def getQuestionStatus (db : Db) (sid qid : Nat) : String :=
  match (attemptsFor db sid qid).getLast? with
  | none => "untried"
  | some a => if a.passed then "passed" else "failed"

/-- Number of VM assignment rows of one student. -/
def assignCount (db : Db) (sid : Nat) : Nat :=
  (db.assignments.filter (fun a => a.studentId == sid)).length

/-! ## System state: database plus traces

The hypervisor-mutating calls go through `pveQueue` (`src/queue.js` is
absent).  Modelled from the spec: the queue admits units one at a time in
submission order and runs each unit to completion; under the sequential
handler semantics embedded here, admitting a unit runs it inline.
`queueAdds` counts admitted units, `pveOps` records hypervisor-mutating
operations, `sshCmds` records SSH commands issued. -/

/-- A hypervisor-mutating operation. -/
inductive PveOp where
  | clone (name : String) : PveOp
  | power (vmid : Nat) : PveOp
  | snapshot (vmid : Nat) (name : String) : PveOp
  | rollback (vmid : Nat) (name : String) : PveOp
deriving Repr, DecidableEq

/-- The full system state of the embedding. -/
structure Sys where
  db : Db
  queueAdds : Nat
  pveOps : List PveOp
  sshCmds : List String

/-- The HTTP-level results of the handlers under study. -/
inductive ApiResult where
  | err (status : Nat) (msg : String) : ApiResult
  | startOk (current_qid : Nat) (injected : String) (inject_output : String)
      (vmid : Nat) (vm_ip : Option String) : ApiResult
  | verifyOk (passed : Bool) (output : String) : ApiResult
  | nextDone : ApiResult
  | nextOk (current_qid : Nat) (injected : String) (inject_output : String) : ApiResult
  | loginOk (id : Nat) (role : String) (username : String) : ApiResult
deriving Repr, DecidableEq

/-- The helper `getStudentVmConn` (`src/app.js` lines 54-70): connection info only if
an assignment with a truthy IP exists and `VM_SSH_KEY_PATH` is configured. -/
def getStudentVmConn (sshKeyPath : Option String) (db : Db) (sid : Nat) : Option Conn :=
  match getVmAssignment db sid with
  | none => none
  | some a =>
    if !(jsTruthyStr a.vm_ip) then none
    else if !(jsTruthyStr sshKeyPath) then none
    else some ⟨a.vm_ip.getD ""⟩

/-- Model of `(r.stdout || r.stderr || '').trim()` (`src/app.js` lines 306, 355, 422). -/
def outputOf (r : SSHResult) : String :=
  strTrim (if r.stdout ≠ "" then r.stdout else if r.stderr ≠ "" then r.stderr else "")

/-- The fault-injection snippet shared by `start` and `next` (`src/app.js`
lines 302-312 and 418-428): run the fault script when a connection exists,
turning an execution failure into a warning string; `warnMsg` is the
call-site specific no-connection warning. -/
def injectFault (warnMsg : String) (q : Question) (conn : Option Conn)
    (exec : SshExec) (now : Nat) : String × List String :=
  match conn with
  | none => (warnMsg, [])
  | some c =>
    let ex := executeScript (some c) exec now q.fault_script q.fault_path "fault"
    match ex.1 with
    | Except.ok r => (outputOf r, ex.2)
    | Except.error e => ("注入失敗: " ++ e, ex.2)

/-- The no-connection warning used by `POST /api/student/start`. -/
def warnStart : String := "[警告] 無法連線到 VM，請檢查 VM_SSH_KEY_PATH 和 VM IP 配置"

/-- The no-connection warning used by `POST /api/student/next`. -/
def warnNext : String := "[警告] 無法連線到 VM"

/-! ## `POST /api/student/start` (`src/app.js` lines 241-328) -/

/-- The outcomes of the external calls made during one `start` request. -/
structure StartEnv where
  cloneRes : Except String Nat
  startRes : Except String Unit
  ipRes : Option String
  ipTemplate : Option String
  snapshotRes : Except String Unit
  sshKeyPath : Option String
  exec : SshExec
  now : Nat

/-- The provisioning unit submitted to the queue by `start` (`src/app.js`
lines 256-286): clone, power on, wait 10 s, resolve the IP (guest agent,
else `VM_IP_TEMPLATE` with `\x7bvmid\x7d` substituted, else null), snapshot
`clean_start`, then persist the assignment.  A failure anywhere aborts the
unit; the assignment row is written only at the very end. -/
def provisionUnit (env : StartEnv) (sid : Nat) (username : String) (s : Sys) :
    Except String Unit × Sys :=
  let name := "student-" ++ username ++ "-" ++ toString sid
  let s := { s with pveOps := s.pveOps ++ [PveOp.clone name] }
  match env.cloneRes with
  | Except.error e => (Except.error e, s)
  | Except.ok newVmid =>
    let s := { s with pveOps := s.pveOps ++ [PveOp.power newVmid] }
    match env.startRes with
    | Except.error e => (Except.error e, s)
    | Except.ok _ =>
      let vmIp : Option String :=
        if jsTruthyStr env.ipRes then env.ipRes
        else if jsTruthyStr env.ipTemplate then
          some (replaceFirst (env.ipTemplate.getD "") "\x7bvmid\x7d" (toString newVmid))
        else none
      let s := { s with pveOps := s.pveOps ++ [PveOp.snapshot newVmid "clean_start"] }
      match env.snapshotRes with
      | Except.error e => (Except.error e, s)
      | Except.ok _ =>
        (Except.ok (), { s with db := createVmAssignment s.db sid newVmid name vmIp "clean_start" })

/-- The tail of the `start` handler shared by both branches (`src/app.js`
lines 291-323): re-check the question list, set progress to the first
enabled question with `started = true`, inject its fault, and answer with
the assignment's VM info.  (The `none` assignment case is unreachable from
`startHandler`; in the source it would be a thrown `TypeError` answered as
a 500.) -/
def startCommon (env : StartEnv) (sid : Nat) (s : Sys) : ApiResult × Sys :=
  match (getQuestions s.db true).head? with
  | none => (ApiResult.err 500 "題庫是空的", s)
  | some first =>
    let db1 := updateProgress s.db sid first.id true
    let conn := getStudentVmConn env.sshKeyPath db1 sid
    let inj := injectFault warnStart first conn env.exec env.now
    let s1 := { s with db := db1, sshCmds := s.sshCmds ++ inj.2 }
    match getVmAssignment db1 sid with
    | some a => (ApiResult.startOk first.id first.fault_id inj.1 a.vmid a.vm_ip, s1)
    | none => (ApiResult.err 500 "TypeError", s1)

/-- Handler of `POST /api/student/start`: provision a VM through the queue only when
no assignment exists, then set progress to the first enabled question and
inject its fault. -/
def startHandler (env : StartEnv) (sid : Nat) (username : String) (s : Sys) :
    ApiResult × Sys :=
  match getVmAssignment s.db sid with
  | some _ => startCommon env sid s
  | none =>
    match (getQuestions s.db true).head? with
    | none => (ApiResult.err 500 "題庫是空的", s)
    | some _ =>
      let pu := provisionUnit env sid username { s with queueAdds := s.queueAdds + 1 }
      match pu.1 with
      | Except.error e => (ApiResult.err 500 e, pu.2)
      | Except.ok _ => startCommon env sid pu.2

/-! ## `POST /api/student/verify` (`src/app.js` lines 331-372) -/

/-- The outcomes of the external calls made during one `verify` request. -/
structure VerifyEnv where
  sshKeyPath : Option String
  exec : SshExec
  now : Nat

/-- Handler of `POST /api/student/verify`: run the question's check script and record
an attempt.  There is no comparison of `question_id` against
`Progress.current` anywhere in the handler. -/
def verifyHandler (env : VerifyEnv) (sid : Nat) (question_id : Nat) (s : Sys) :
    ApiResult × Sys :=
  match getQuestion s.db question_id with
  | none => (ApiResult.err 404 "題目不存在", s)
  | some q =>
    match getStudentVmConn env.sshKeyPath s.db sid with
    | none =>
      let db1 := recordAttempt s.db sid question_id false "" "" "[dry-run] 未設定 VM 連線"
      (ApiResult.verifyOk false "[dry-run] 未設定 VM 連線，模擬 fail。", { s with db := db1 })
    | some c =>
      let ex := executeScript (some c) env.exec env.now q.check_script q.check_path "check"
      match ex.1 with
      | Except.ok r =>
        let passed := r.code == 0
        let output := outputOf r
        let db1 := recordAttempt s.db sid question_id passed r.stdout r.stderr output
        (ApiResult.verifyOk passed output, { s with db := db1, sshCmds := s.sshCmds ++ ex.2 })
      | Except.error e =>
        let db1 := recordAttempt s.db sid question_id false "" e ""
        (ApiResult.err 500 ("驗證失敗: " ++ e), { s with db := db1, sshCmds := s.sshCmds ++ ex.2 })

/-! ## `POST /api/student/next` (`src/app.js` lines 375-441) -/

/-- The outcomes of the external calls made during one `next` request. -/
structure NextEnv where
  rollbackRes : Except String Unit
  sshKeyPath : Option String
  exec : SshExec
  now : Nat

/-- The `questions[currentIdx + 1]` lookup of `next` (`src/app.js` lines
385-386): JavaScript `findIndex` yields `-1` when the current question is
not in the enabled list, in which case `questions[0]` is read. -/
def nextLookup (db : Db) (sid : Nat) : Option Question :=
  let qs := getQuestions db true
  match qs.findIdx? (fun q => q.id == (getProgress db sid).current_qid) with
  | some i => qs[i + 1]?
  | none => qs[0]?

/-- Handler of `POST /api/student/next`: look up the following enabled question; when
none exists answer `done` (before any passed-status check); otherwise
require the current question's status to be `passed`, roll back to the
snapshot through the queue, advance progress only after the rollback
succeeds, and inject the next fault. -/
def nextHandler (env : NextEnv) (sid : Nat) (s : Sys) : ApiResult × Sys :=
  let progress := getProgress s.db sid
  if !progress.started then (ApiResult.err 400 "尚未開始訓練", s)
  else
    match nextLookup s.db sid with
    | none => (ApiResult.nextDone, s)
    | some nq =>
      if getQuestionStatus s.db sid progress.current_qid ≠ "passed" then
        (ApiResult.err 400 "當前題目尚未通過驗證，無法進入下一題", s)
      else
        match getVmAssignment s.db sid with
        | none => (ApiResult.err 500 "VM 未分配", s)
        | some a =>
          let s1 := { s with queueAdds := s.queueAdds + 1,
                             pveOps := s.pveOps ++ [PveOp.rollback a.vmid a.snapshot_name] }
          match env.rollbackRes with
          | Except.error e => (ApiResult.err 500 e, s1)
          | Except.ok _ =>
            let db1 := updateProgress s1.db sid nq.id true
            let conn := getStudentVmConn env.sshKeyPath db1 sid
            let inj := injectFault warnNext nq conn env.exec env.now
            (ApiResult.nextOk nq.id nq.fault_id inj.1,
              { s1 with db := db1, sshCmds := s1.sshCmds ++ inj.2 })

/-! ## `POST /api/auth/login` (`src/app.js` lines 120-139) -/

/-- The role computed by the login handler: `teacher` exactly when the
username contains the substring `teacher`. -/
def roleOf (username : String) : String :=
  if strIncludes username "teacher" then "teacher" else "student"

/-- Handler of `POST /api/auth/login`: no password; the role is derived from the
username and unknown usernames are auto-created.  `getOrCreateUser` is
modelled from the spec and repository documentation: `src/db.js` is absent;
`SECURITY_FIX_GUIDE.md` documents that a nonexistent user is automatically
created (with the supplied role) and an existing row is returned as is. -/
def loginHandler (username : String) (s : Sys) : ApiResult × Sys :=
  if username = "" then (ApiResult.err 400 "missing username", s)
  else
    let role := roleOf username
    match s.db.users.find? (fun u => u.username == username) with
    | some u => (ApiResult.loginOk u.id u.role u.username, s)
    | none =>
      let u : User := ⟨s.db.nextUserId, username, role⟩
      (ApiResult.loginOk u.id u.role u.username,
        { s with db := { s.db with users := s.db.users ++ [u],
                                   nextUserId := s.db.nextUserId + 1 } })

/-- The middleware `requireRole(role)` (`src/app.js` lines 46-51): the session passes the
gate exactly when its role equals the required one. -/
def requireRoleOk (required sessionRole : String) : Bool :=
  sessionRole == required

/-! ## Lemmas about `waitForTask` -/

/-- A task whose terminal status never changes once reached. -/
def PersistentTask (poll : Nat → TaskStatus) : Prop :=
  ∀ i es, poll i = TaskStatus.stopped es → ∀ j, i ≤ j → poll j = TaskStatus.stopped es

theorem waitLoop_ok_imp (poll : Nat → TaskStatus) (timeout : Nat) :
    ∀ fuel i, waitLoop poll timeout fuel i = Except.ok true →
      ∃ k, 2000 * k < timeout ∧ poll k = TaskStatus.stopped "OK" := by
  intro fuel
  induction fuel with
  | zero => intro i h; simp [waitLoop] at h
  | succ fuel ih =>
    intro i h
    by_cases hg : 2000 * i < timeout
    · rw [waitLoop, if_pos hg] at h
      cases hp : poll i with
      | running => rw [hp] at h; exact ih (i + 1) h
      | stopped es =>
        rw [hp] at h
        by_cases he : es = "OK"
        · exact ⟨i, hg, by rw [hp, he]⟩
        · simp [he] at h
    · rw [waitLoop, if_neg hg] at h; simp at h

theorem waitLoop_ok_of (poll : Nat → TaskStatus) (timeout : Nat)
    (hp : PersistentTask poll) (k : Nat) (hk : 2000 * k < timeout)
    (hok : poll k = TaskStatus.stopped "OK") :
    ∀ fuel i, i ≤ k → k < i + fuel → waitLoop poll timeout fuel i = Except.ok true := by
  intro fuel
  induction fuel with
  | zero => intro i hik hlt; omega
  | succ fuel ih =>
    intro i hik hlt
    have hg : 2000 * i < timeout := lt_of_le_of_lt (by omega) hk
    rw [waitLoop, if_pos hg]
    cases hpi : poll i with
    | stopped es =>
      have := hp i es hpi k hik
      rw [hok] at this
      have hes : es = "OK" := by injection this with h; exact h.symm
      simp [hes]
    | running =>
      have hik' : i + 1 ≤ k := by
        rcases Nat.lt_or_ge i k with h | h
        · omega
        · have : i = k := le_antisymm hik h
          rw [this, hok] at hpi; cases hpi
      exact ih (i + 1) hik' (by omega)

theorem waitLoop_failed_of (poll : Nat → TaskStatus) (timeout : Nat)
    (hp : PersistentTask poll) (k : Nat) (es : String) (hk : 2000 * k < timeout)
    (hes : poll k = TaskStatus.stopped es) (hne : es ≠ "OK") :
    ∀ fuel i, i ≤ k → k < i + fuel →
      waitLoop poll timeout fuel i = Except.error (TaskError.taskFailed es) := by
  intro fuel
  induction fuel with
  | zero => intro i hik hlt; omega
  | succ fuel ih =>
    intro i hik hlt
    have hg : 2000 * i < timeout := lt_of_le_of_lt (by omega) hk
    rw [waitLoop, if_pos hg]
    cases hpi : poll i with
    | stopped es' =>
      have := hp i es' hpi k hik
      rw [hes] at this
      have h2 : es' = es := by injection this with h; exact h.symm
      simp [h2, hne]
    | running =>
      have hik' : i + 1 ≤ k := by
        rcases Nat.lt_or_ge i k with h | h
        · omega
        · have : i = k := le_antisymm hik h
          rw [this, hes] at hpi; cases hpi
      exact ih (i + 1) hik' (by omega)

theorem waitLoop_timeout_of (poll : Nat → TaskStatus) (timeout : Nat)
    (hr : ∀ k, 2000 * k < timeout → poll k = TaskStatus.running) :
    ∀ fuel i, waitLoop poll timeout fuel i = Except.error TaskError.taskTimeout := by
  intro fuel
  induction fuel with
  | zero => intro i; rfl
  | succ fuel ih =>
    intro i
    by_cases hg : 2000 * i < timeout
    · rw [waitLoop, if_pos hg, hr i hg]; exact ih (i + 1)
    · rw [waitLoop, if_neg hg]

/-- Claim C4: `waitForTask` polls the task status in 2000 ms steps and, for a
task whose terminal status is persistent: it resolves `true` iff some poll
within the timeout window reports status `stopped` with exit status `"OK"`;
it fails with the task-failed error carrying the exit status when a poll
within the window reports any other terminal exit status; it fails with the
timeout error when the task never stops within the window (the loop is a
total function, so it never runs past its `(timeout + 1999) / 2000` polls);
and the default budget is 300000 ms (300 s). -/
theorem waitForTask_spec (poll : Nat → TaskStatus) (timeout : Nat)
    (hp : PersistentTask poll) :
    (waitForTask poll timeout = Except.ok true ↔
      ∃ k, 2000 * k < timeout ∧ poll k = TaskStatus.stopped "OK") ∧
    (∀ k es, 2000 * k < timeout → poll k = TaskStatus.stopped es → es ≠ "OK" →
      waitForTask poll timeout = Except.error (TaskError.taskFailed es)) ∧
    ((∀ k, 2000 * k < timeout → poll k = TaskStatus.running) →
      waitForTask poll timeout = Except.error TaskError.taskTimeout) ∧
    waitForTaskDefault poll = waitForTask poll 300000 := by
  refine ⟨⟨fun h => waitLoop_ok_imp poll timeout _ 0 h, ?_⟩, ?_, ?_, rfl⟩
  · rintro ⟨k, hk, hok⟩
    exact waitLoop_ok_of poll timeout hp k hk hok _ 0 (Nat.zero_le k) (by omega)
  · intro k es hk hes hne
    exact waitLoop_failed_of poll timeout hp k es hk hes hne _ 0 (Nat.zero_le k) (by omega)
  · intro hr
    exact waitLoop_timeout_of poll timeout hr _ 0

/-- Witness for C4 at concrete tasks: an immediately-`OK` task resolves
`true`, a task reporting exit status `"ERROR"` fails with the task-failed
error, and a never-stopping task fails with the timeout error. -/
theorem waitForTask_spec_witness :
    waitForTask (fun _ => TaskStatus.stopped "OK") 300000 = Except.ok true ∧
    waitForTask (fun _ => TaskStatus.stopped "ERROR") 300000 =
      Except.error (TaskError.taskFailed "ERROR") ∧
    waitForTask (fun _ => TaskStatus.running) 4001 =
      Except.error TaskError.taskTimeout := by
  have hok : PersistentTask (fun _ => TaskStatus.stopped "OK") := fun i es h j _ => h
  have herr : PersistentTask (fun _ => TaskStatus.stopped "ERROR") := fun i es h j _ => h
  have hrun : PersistentTask (fun _ => TaskStatus.running) := fun i es h => by cases h
  refine ⟨?_, ?_, ?_⟩
  · exact (waitForTask_spec _ 300000 hok).1.mpr ⟨0, by norm_num, rfl⟩
  · exact (waitForTask_spec _ 300000 herr).2.1 0 "ERROR" (by norm_num) rfl (by decide)
  · exact (waitForTask_spec _ 4001 hrun).2.2.1 (fun k _ => rfl)

/-! ## Lemmas about `getVMIP` -/

/-- The address filter of `getVMIP`: IPv4 and not in `127.0.0.0/8`. -/
def goodIp (ip : IpAddr) : Bool :=
  ip.addrType == "ipv4" && !(strStartsWith ip.addr "127.")

theorem pickIp_eq_find (ips : List IpAddr) :
    pickIp ips = (ips.find? goodIp).map (fun ip => ip.addr) := by
  induction ips with
  | nil => rfl
  | cons ip rest ih =>
    by_cases h : goodIp ip
    · have hb : (ip.addrType = "ipv4" && !(strStartsWith ip.addr "127.")) = true := by
        simpa [goodIp] using h
      simp [pickIp, hb, List.find?_cons, h]
    · have hb : (ip.addrType = "ipv4" && !(strStartsWith ip.addr "127.")) = false := by
        simpa [goodIp] using h
      simp [pickIp, hb, List.find?_cons, h, ih]

theorem findIp_eq_find (ifaces : List NetIf) :
    findIp ifaces = ((allIps ifaces).find? goodIp).map (fun ip => ip.addr) := by
  induction ifaces with
  | nil => rfl
  | cons f rest ih =>
    cases hf : f.ipAddrs with
    | none => simp [findIp, hf, allIps, ih]
    | some ips =>
      cases ips with
      | nil => simp [findIp, hf, allIps, ih]
      | cons ip tl =>
        rw [findIp, hf]
        simp only [allIps, hf, Option.getD_some, List.find?_append]
        rw [pickIp_eq_find]
        cases hfind : (ip :: tl).find? goodIp with
        | none => simp [hfind, ih]
        | some a => simp [hfind]

/-- Claim C8: `getVMIP` never throws: a failed status query yields `null`; a
missing guest agent or missing interface report yields `null`; and
otherwise the result is exactly the first reported address of type `ipv4`
whose address does not start with `127.`, or `null` when there is none. -/
theorem getVMIP_spec :
    (∀ e, getVMIP (Except.error e) = none) ∧
    (∀ status, status.agent = none → getVMIP (Except.ok status) = none) ∧
    (∀ status, status.agent = some none → getVMIP (Except.ok status) = none) ∧
    (∀ status ifaces, status.agent = some (some ifaces) →
      getVMIP (Except.ok status) =
        ((allIps ifaces).find? goodIp).map (fun ip => ip.addr)) := by
  refine ⟨fun e => rfl, fun status h => by simp [getVMIP, h],
    fun status h => by simp [getVMIP, h], fun status ifaces h => ?_⟩
  simp [getVMIP, h, findIp_eq_find]

/-- Is the result an HTTP error response? -/
def isErr : ApiResult → Bool
  | ApiResult.err _ _ => true
  | _ => false

/-! ## Concrete fixtures used by witnesses and counterexamples -/

/-- Enabled question 1 with inline scripts. -/
def qA : Question :=
  ⟨1, "t1", "b1", "easy", "fault_1", some "echo one", none,
    "check_1", some "check one", none, true⟩

/-- Enabled question 2 with inline scripts. -/
def qB : Question :=
  ⟨2, "t2", "b2", "easy", "fault_2", some "echo two", none,
    "check_2", some "check two", none, true⟩

/-- A VM assignment for student 7. -/
def aA : VmAssignment := ⟨7, 101, "vm-7", some "10.0.0.5", "clean_start"⟩

/-- An SSH oracle where every command succeeds with stdout `ok`. -/
def okExec : SshExec := fun _ => Except.ok ⟨0, "ok", ""⟩

/-- Two enabled questions, student 7 assigned and on question 1, no
attempts yet. -/
def sysTwo : Sys :=
  ⟨⟨[qA, qB], [aA], fun _ => ⟨1, true⟩, [], [], 1⟩, 0, [], []⟩

/-- Like `sysTwo` but with a passing attempt on question 1. -/
def sysPassed : Sys :=
  ⟨⟨[qA, qB], [aA], fun _ => ⟨1, true⟩, [⟨7, 1, true, "ok", "", "ok"⟩], [], 1⟩, 0, [], []⟩

/-- One enabled question only, student 7 on it with a failing attempt. -/
def sysOne : Sys :=
  ⟨⟨[qA], [aA], fun _ => ⟨1, true⟩, [⟨7, 1, false, "", "no", "no"⟩], [], 1⟩, 0, [], []⟩

/-- One question, no VM assignment for anyone. -/
def sysNoVm : Sys :=
  ⟨⟨[qA], [], fun _ => ⟨0, false⟩, [], [], 1⟩, 0, [], []⟩

/-- A `start` environment where every hypervisor call succeeds. -/
def startEnvW : StartEnv :=
  ⟨Except.ok 205, Except.ok (), some "10.0.0.9", none, Except.ok (),
    some "/key", okExec, 42⟩

/-- A `next` environment where the rollback succeeds. -/
def nextEnvW : NextEnv := ⟨Except.ok (), some "/key", okExec, 42⟩

/-- A `verify` environment with a configured SSH key. -/
def verifyEnvW : VerifyEnv := ⟨some "/key", okExec, 42⟩

/-- Witness for C8 at a concrete status report: the loopback address is
skipped and the first non-loopback IPv4 is returned. -/
theorem getVMIP_spec_witness :
    getVMIP (Except.ok ⟨some (some [⟨some [⟨"ipv4", "127.0.0.1"⟩]⟩,
        ⟨some [⟨"ipv6", "fe80::1"⟩, ⟨"ipv4", "192.168.1.7"⟩]⟩])⟩) =
      some "192.168.1.7" := by
  have h := (getVMIP_spec).2.2.2
    ⟨some (some [⟨some [⟨"ipv4", "127.0.0.1"⟩]⟩,
      ⟨some [⟨"ipv6", "fe80::1"⟩, ⟨"ipv4", "192.168.1.7"⟩]⟩])⟩
    [⟨some [⟨"ipv4", "127.0.0.1"⟩]⟩, ⟨some [⟨"ipv6", "fe80::1"⟩, ⟨"ipv4", "192.168.1.7"⟩]⟩]
    rfl
  rw [h]
  decide

/-! ## Lemmas about the `start` handler -/

theorem startCommon_preserves (env : StartEnv) (sid : Nat) (s : Sys) :
    (startCommon env sid s).2.queueAdds = s.queueAdds ∧
    (startCommon env sid s).2.pveOps = s.pveOps ∧
    (startCommon env sid s).2.db.assignments = s.db.assignments := by
  simp only [startCommon]
  cases hq : (getQuestions s.db true).head? with
  | none => exact ⟨rfl, rfl, rfl⟩
  | some first =>
    dsimp only []
    cases getVmAssignment (updateProgress s.db sid first.id true) sid with
    | some a => exact ⟨rfl, rfl, rfl⟩
    | none => exact ⟨rfl, rfl, rfl⟩

theorem provisionUnit_spec (env : StartEnv) (sid : Nat) (username : String) (s : Sys) :
    (provisionUnit env sid username s).2.queueAdds = s.queueAdds ∧
    ((provisionUnit env sid username s).2.db.assignments = s.db.assignments ∨
      ∃ vmid name ip,
        (provisionUnit env sid username s).2.db.assignments =
          s.db.assignments ++ [⟨sid, vmid, name, ip, "clean_start"⟩]) := by
  simp only [provisionUnit]
  cases env.cloneRes with
  | error e => exact ⟨rfl, Or.inl rfl⟩
  | ok vmid =>
    cases env.startRes with
    | error e => exact ⟨rfl, Or.inl rfl⟩
    | ok _ =>
      cases env.snapshotRes with
      | error e => exact ⟨rfl, Or.inl rfl⟩
      | ok _ => exact ⟨rfl, Or.inr ⟨vmid, _, _, rfl⟩⟩

theorem assignCount_eq_zero_of_none (db : Db) (sid : Nat)
    (h : getVmAssignment db sid = none) : assignCount db sid = 0 := by
  unfold assignCount
  unfold getVmAssignment at h
  rw [List.find?_eq_none] at h
  rw [List.filter_eq_nil_iff.mpr h]
  rfl

/-- Claim C1: a `start()` call finding an existing VmAssignment admits no
queue unit, performs no hypervisor operation (in particular no clone), and
leaves the assignment table unchanged; moreover a `start()` call preserves
"at most one VmAssignment for the student", and `verify()`/`next()` never
touch the assignment table — so under sequential calls at most one
VmAssignment per student ever exists. -/
theorem start_provisions_only_when_unassigned (env : StartEnv) (sid : Nat)
    (username : String) (s : Sys) :
    (∀ a, getVmAssignment s.db sid = some a →
      (startHandler env sid username s).2.queueAdds = s.queueAdds ∧
      (startHandler env sid username s).2.pveOps = s.pveOps ∧
      (startHandler env sid username s).2.db.assignments = s.db.assignments) ∧
    (assignCount s.db sid ≤ 1 →
      assignCount (startHandler env sid username s).2.db sid ≤ 1) ∧
    (∀ (env2 : NextEnv) (sid2 : Nat),
      (nextHandler env2 sid2 s).2.db.assignments = s.db.assignments) ∧
    (∀ (env3 : VerifyEnv) (sid3 qid : Nat),
      (verifyHandler env3 sid3 qid s).2.db.assignments = s.db.assignments) := by
  refine ⟨?_, ?_, ?_, ?_⟩
  · intro a ha
    simp only [startHandler, ha]
    exact startCommon_preserves env sid s
  · intro hle
    cases ha : getVmAssignment s.db sid with
    | some a =>
      simp only [startHandler, ha]
      have h := (startCommon_preserves env sid s).2.2
      unfold assignCount at hle ⊢
      rw [h]
      exact hle
    | none =>
      have h0 : assignCount s.db sid = 0 := assignCount_eq_zero_of_none s.db sid ha
      simp only [startHandler, ha]
      cases hq : (getQuestions s.db true).head? with
      | none => simpa [assignCount] using hle
      | some first =>
        dsimp only []
        have hdb : ({ s with queueAdds := s.queueAdds + 1 } : Sys).db.assignments
            = s.db.assignments := rfl
        have hassign :=
          (provisionUnit_spec env sid username { s with queueAdds := s.queueAdds + 1 }).2
        rw [hdb] at hassign
        have hcnt : assignCount
            (provisionUnit env sid username { s with queueAdds := s.queueAdds + 1 }).2.db sid ≤ 1 := by
          rcases hassign with h1 | ⟨vmid, name, ip, h1⟩
          · unfold assignCount
            rw [h1]
            rw [show (List.filter (fun a => a.studentId == sid) s.db.assignments).length
              = assignCount s.db sid from rfl, h0]
            omega
          · unfold assignCount
            rw [h1, List.filter_append]
            rw [List.length_append]
            rw [show (List.filter (fun a => a.studentId == sid) s.db.assignments).length
              = assignCount s.db sid from rfl, h0]
            simp
        cases hres : (provisionUnit env sid username { s with queueAdds := s.queueAdds + 1 }).1 with
        | error e => exact hcnt
        | ok u =>
          have hc := (startCommon_preserves env sid
            (provisionUnit env sid username { s with queueAdds := s.queueAdds + 1 }).2).2.2
          unfold assignCount at hcnt ⊢
          rw [hc]
          exact hcnt
  · intro env2 sid2
    simp only [nextHandler]
    cases hst : (getProgress s.db sid2).started with
    | false => rfl
    | true =>
      simp only [Bool.not_true, Bool.false_eq_true, if_false]
      cases hnl : nextLookup s.db sid2 with
      | none => rfl
      | some nq =>
        by_cases hps : getQuestionStatus s.db sid2 (getProgress s.db sid2).current_qid = "passed"
        · simp only [hps, ne_eq, not_true_eq_false, if_false]
          cases ha2 : getVmAssignment s.db sid2 with
          | none => rfl
          | some a =>
            cases env2.rollbackRes with
            | error e => rfl
            | ok _ => rfl
        · simp only [ne_eq, hps, not_false_eq_true, if_true]
  · intro env3 sid3 qid
    simp only [verifyHandler]
    cases hq : getQuestion s.db qid with
    | none => rfl
    | some q =>
      dsimp only []
      cases hc : getStudentVmConn env3.sshKeyPath s.db sid3 with
      | none => rfl
      | some c =>
        dsimp only []
        cases hex : (executeScript (some c) env3.exec env3.now q.check_script q.check_path "check").1 with
        | ok r => rfl
        | error e => rfl

/-- Witness for C1: with an assignment already present, a fully-succeeding
`start()` admits no unit, records no hypervisor operation and leaves the
single assignment row in place. -/
theorem start_provisions_only_when_unassigned_witness :
    (startHandler startEnvW 7 "bob" sysTwo).2.queueAdds = sysTwo.queueAdds ∧
    (startHandler startEnvW 7 "bob" sysTwo).2.pveOps = sysTwo.pveOps ∧
    (startHandler startEnvW 7 "bob" sysTwo).2.db.assignments = sysTwo.db.assignments ∧
    assignCount (startHandler startEnvW 7 "bob" sysTwo).2.db 7 ≤ 1 := by
  have h := start_provisions_only_when_unassigned startEnvW 7 "bob" sysTwo
  have h1 := h.1 aA rfl
  exact ⟨h1.1, h1.2.1, h1.2.2, h.2.1 (by decide)⟩

/-- Claim C10: when an assignment already exists and the enabled question
list is nonempty, `start()` touches neither the queue nor the hypervisor
nor the assignment table, but unconditionally resets the student's
progress to the first enabled question with `started = true`, re-runs the
first question's fault injection against the VM as it currently stands,
and answers with the stored VM info. -/
theorem start_existing_resets_progress (env : StartEnv) (sid : Nat) (username : String)
    (s : Sys) (a : VmAssignment) (first : Question)
    (ha : getVmAssignment s.db sid = some a)
    (hq : (getQuestions s.db true).head? = some first) :
    (startHandler env sid username s).2.queueAdds = s.queueAdds ∧
    (startHandler env sid username s).2.pveOps = s.pveOps ∧
    (startHandler env sid username s).2.db.assignments = s.db.assignments ∧
    (startHandler env sid username s).2.db.progress sid = ⟨first.id, true⟩ ∧
    (startHandler env sid username s).1 =
      ApiResult.startOk first.id first.fault_id
        (injectFault warnStart first
          (getStudentVmConn env.sshKeyPath (updateProgress s.db sid first.id true) sid)
          env.exec env.now).1 a.vmid a.vm_ip ∧
    (startHandler env sid username s).2.sshCmds =
      s.sshCmds ++ (injectFault warnStart first
          (getStudentVmConn env.sshKeyPath (updateProgress s.db sid first.id true) sid)
          env.exec env.now).2 := by
  have ha2 : getVmAssignment (updateProgress s.db sid first.id true) sid = some a := ha
  simp only [startHandler, startCommon, ha, hq, ha2]
  simp [updateProgress]

/-- Witness for C10 at a concrete state: the second `start()` keeps the
traces empty, resets progress to question 1 and answers with the stored
assignment. -/
theorem start_existing_resets_progress_witness :
    (startHandler startEnvW 7 "bob" sysTwo).2.queueAdds = sysTwo.queueAdds ∧
    (startHandler startEnvW 7 "bob" sysTwo).2.pveOps = sysTwo.pveOps ∧
    (startHandler startEnvW 7 "bob" sysTwo).2.db.assignments = sysTwo.db.assignments ∧
    (startHandler startEnvW 7 "bob" sysTwo).2.db.progress 7 = ⟨qA.id, true⟩ ∧
    (startHandler startEnvW 7 "bob" sysTwo).1 =
      ApiResult.startOk qA.id qA.fault_id
        (injectFault warnStart qA
          (getStudentVmConn startEnvW.sshKeyPath (updateProgress sysTwo.db 7 qA.id true) 7)
          startEnvW.exec startEnvW.now).1 aA.vmid aA.vm_ip ∧
    (startHandler startEnvW 7 "bob" sysTwo).2.sshCmds =
      sysTwo.sshCmds ++ (injectFault warnStart qA
          (getStudentVmConn startEnvW.sshKeyPath (updateProgress sysTwo.db 7 qA.id true) 7)
          startEnvW.exec startEnvW.now).2 :=
  start_existing_resets_progress startEnvW 7 "bob" sysTwo aA qA rfl rfl

/-! ## Theorems about the `next` handler -/

/-- Claim C3: a `next()` call that finds a following enabled question, a
passed current question and an assignment admits exactly one queue unit;
when the rollback succeeds, the hypervisor trace gains exactly the one
rollback-to-snapshot operation, progress moves to the question delivered
by the `questions[currentIdx + 1]` lookup with `started = true`, and the
response reports that question; when the rollback fails, progress is
untouched and the error is surfaced.  The last conjunct ties the lookup to
"the enabled question at the index right after the current one". -/
theorem next_success_rollback_then_advance (env : NextEnv) (sid : Nat) (s : Sys)
    (nq : Question) (a : VmAssignment)
    (hstart : (getProgress s.db sid).started = true)
    (hnext : nextLookup s.db sid = some nq)
    (hpassed : getQuestionStatus s.db sid (getProgress s.db sid).current_qid = "passed")
    (ha : getVmAssignment s.db sid = some a) :
    ((nextHandler env sid s).2.queueAdds = s.queueAdds + 1) ∧
    (env.rollbackRes = Except.ok () →
      (nextHandler env sid s).2.pveOps = s.pveOps ++ [PveOp.rollback a.vmid a.snapshot_name] ∧
      (nextHandler env sid s).2.db.progress sid = ⟨nq.id, true⟩ ∧
      (nextHandler env sid s).1 = ApiResult.nextOk nq.id nq.fault_id
        (injectFault warnNext nq
          (getStudentVmConn env.sshKeyPath (updateProgress s.db sid nq.id true) sid)
          env.exec env.now).1) ∧
    (∀ e, env.rollbackRes = Except.error e →
      (nextHandler env sid s).2.db.progress sid = s.db.progress sid ∧
      (nextHandler env sid s).1 = ApiResult.err 500 e) ∧
    (∀ i, (getQuestions s.db true).findIdx?
        (fun q => q.id == (getProgress s.db sid).current_qid) = some i →
      nextLookup s.db sid = (getQuestions s.db true)[i + 1]?) := by
  simp only [nextHandler, hstart, Bool.not_true, Bool.false_eq_true, if_false, hnext,
    hpassed, ne_eq, not_true_eq_false, ha]
  cases hrb : env.rollbackRes with
  | error e =>
    refine ⟨rfl, ?_, ?_, ?_⟩
    · intro h; cases h
    · intro e' h
      injection h with h'
      subst h'
      exact ⟨rfl, rfl⟩
    · intro i h
      have hx := hnext
      simp only [nextLookup, h] at hx
      exact hx.symm
  | ok u =>
    cases u
    refine ⟨rfl, ?_, ?_, ?_⟩
    · intro _
      refine ⟨rfl, ?_, rfl⟩
      simp [updateProgress]
    · intro e' h; cases h
    · intro i h
      have hx := hnext
      simp only [nextLookup, h] at hx
      exact hx.symm

/-- Witness for C3 at a concrete state where the current question passed:
one unit admitted, one rollback traced, progress moved to question 2. -/
theorem next_success_rollback_then_advance_witness :
    (nextHandler nextEnvW 7 sysPassed).2.queueAdds = sysPassed.queueAdds + 1 ∧
    (nextHandler nextEnvW 7 sysPassed).2.pveOps =
      sysPassed.pveOps ++ [PveOp.rollback aA.vmid aA.snapshot_name] ∧
    (nextHandler nextEnvW 7 sysPassed).2.db.progress 7 = ⟨qB.id, true⟩ ∧
    (nextHandler nextEnvW 7 sysPassed).1 = ApiResult.nextOk qB.id qB.fault_id
      (injectFault warnNext qB
        (getStudentVmConn nextEnvW.sshKeyPath (updateProgress sysPassed.db 7 qB.id true) 7)
        nextEnvW.exec nextEnvW.now).1 := by
  have h := next_success_rollback_then_advance nextEnvW 7 sysPassed qB aA rfl rfl rfl rfl
  exact ⟨h.1, (h.2.1 rfl).1, (h.2.1 rfl).2.1, (h.2.1 rfl).2.2⟩

/-- Counterexample for C2 as stated: at a state where the current question
is the last enabled one and its latest attempt is not passed, `next()` is
not rejected — it answers the success result `done` without consulting the
attempt status. -/
theorem next_returns_done_unverified_cex :
    (getProgress sysOne.db 7).started = true ∧
    getQuestionStatus sysOne.db 7 (getProgress sysOne.db 7).current_qid ≠ "passed" ∧
    (nextHandler nextEnvW 7 sysOne).1 = ApiResult.nextDone ∧
    isErr (nextHandler nextEnvW 7 sysOne).1 = false := by decide

/-- Claim C2, amended: `next()` is rejected with the explicit error whenever
the current question's status is not `passed` **and** a following enabled
question exists; the done-check precedes the passed-check, so at the last
enabled question no rejection happens (see the counterexample). -/
theorem next_rejected_when_current_not_passed (env : NextEnv) (sid : Nat) (s : Sys)
    (nq : Question)
    (hstart : (getProgress s.db sid).started = true)
    (hnext : nextLookup s.db sid = some nq)
    (hnot : getQuestionStatus s.db sid (getProgress s.db sid).current_qid ≠ "passed") :
    nextHandler env sid s = (ApiResult.err 400 "當前題目尚未通過驗證，無法進入下一題", s) := by
  simp only [nextHandler, hstart, Bool.not_true, Bool.false_eq_true, if_false, hnext]
  rw [if_pos hnot]

/-- Witness for the amended C2: with an untried current question and a
following question present, `next()` answers the explicit 400 rejection. -/
theorem next_rejected_when_current_not_passed_witness :
    nextHandler nextEnvW 7 sysTwo =
      (ApiResult.err 400 "當前題目尚未通過驗證，無法進入下一題", sysTwo) :=
  next_rejected_when_current_not_passed nextEnvW 7 sysTwo qB rfl rfl (by decide)

/-! ## Theorems about the `verify` handler -/

/-- Counterexample for C5 as stated: student 7's current question is 1, yet
`verify(2)` is not rejected — the check script of question 2 runs (SSH
commands were issued) and an attempt for question 2 is recorded. -/
theorem verify_mismatch_not_rejected_cex :
    (getProgress sysTwo.db 7).current_qid = 1 ∧ (2 : Nat) ≠ 1 ∧
    (verifyHandler verifyEnvW 7 2 sysTwo).1 = ApiResult.verifyOk true "ok" ∧
    (verifyHandler verifyEnvW 7 2 sysTwo).2.sshCmds ≠ [] ∧
    (verifyHandler verifyEnvW 7 2 sysTwo).2.db.attempts = [⟨7, 2, true, "ok", "", "ok"⟩] := by
  decide

/-- Claim C5, amended: `verify(question_id)` never compares `question_id`
with `Progress.current`: an unknown question id is rejected 404 with the
state unchanged, and otherwise the outcome (response and recorded
attempts) is entirely independent of the student's Progress rows. -/
theorem verify_ignores_progress (env : VerifyEnv) (sid qid : Nat) (s : Sys)
    (p : Nat → Progress) :
    (getQuestion s.db qid = none →
      verifyHandler env sid qid s = (ApiResult.err 404 "題目不存在", s)) ∧
    ((verifyHandler env sid qid { s with db := { s.db with progress := p } }).1 =
        (verifyHandler env sid qid s).1 ∧
      (verifyHandler env sid qid { s with db := { s.db with progress := p } }).2.db.attempts =
        (verifyHandler env sid qid s).2.db.attempts) := by
  constructor
  · intro h
    simp only [verifyHandler, h]
  · have h1 : getQuestion { s.db with progress := p } qid = getQuestion s.db qid := rfl
    have h2 : ∀ c, getStudentVmConn c { s.db with progress := p } sid =
        getStudentVmConn c s.db sid := fun c => rfl
    simp only [verifyHandler, h1, h2]
    cases hq : getQuestion s.db qid with
    | none => exact ⟨rfl, rfl⟩
    | some q =>
      dsimp only []
      cases hc : getStudentVmConn env.sshKeyPath s.db sid with
      | none => exact ⟨rfl, rfl⟩
      | some c =>
        dsimp only []
        cases hex : (executeScript (some c) env.exec env.now
            q.check_script q.check_path "check").1 with
        | ok r => exact ⟨rfl, rfl⟩
        | error e => exact ⟨rfl, rfl⟩

/-- Witness for the amended C5: an unknown id gets the 404, and overriding
every Progress row does not change `verify`'s response. -/
theorem verify_ignores_progress_witness :
    verifyHandler verifyEnvW 7 99 sysTwo = (ApiResult.err 404 "題目不存在", sysTwo) ∧
    (verifyHandler verifyEnvW 7 2
        { sysTwo with db := { sysTwo.db with progress := fun _ => ⟨2, true⟩ } }).1 =
      (verifyHandler verifyEnvW 7 2 sysTwo).1 := by
  have h99 := (verify_ignores_progress verifyEnvW 7 99 sysTwo (fun _ => ⟨2, true⟩)).1
  have h2 := (verify_ignores_progress verifyEnvW 7 2 sysTwo (fun _ => ⟨2, true⟩)).2.1
  exact ⟨h99 rfl, h2⟩

/-- Counterexample for C6 as stated: when no connection is resolvable the
recorded attempt's `output` column is the non-empty dry-run marker, not
empty captured output. -/
theorem verify_dry_run_records_marker_cex :
    (verifyHandler verifyEnvW 7 1 sysNoVm).2.db.attempts =
      [⟨7, 1, false, "", "", "[dry-run] 未設定 VM 連線"⟩] ∧
    "[dry-run] 未設定 VM 連線" ≠ "" ∧
    (verifyHandler verifyEnvW 7 1 sysNoVm).1 =
      ApiResult.verifyOk false "[dry-run] 未設定 VM 連線，模擬 fail。" := by
  decide

/-- Claim C6, amended: every `verify` call on an existing question records
exactly one Attempt and never changes Progress; when the check script runs,
`passed = (exit code == 0)` with the captured stdout/stderr; when the
Executor fails, the attempt has `passed = false`, empty stdout, the error
message as stderr and empty output; when no connection is resolvable, the
attempt has `passed = false`, empty stdout/stderr and the dry-run marker as
output. -/
theorem verify_always_records_one_attempt (env : VerifyEnv) (sid qid : Nat) (s : Sys)
    (q : Question) (hq : getQuestion s.db qid = some q) :
    ((verifyHandler env sid qid s).2.db.attempts.length = s.db.attempts.length + 1) ∧
    (∀ x, (verifyHandler env sid qid s).2.db.progress x = s.db.progress x) ∧
    (getStudentVmConn env.sshKeyPath s.db sid = none →
      (verifyHandler env sid qid s).2.db.attempts =
        s.db.attempts ++ [⟨sid, qid, false, "", "", "[dry-run] 未設定 VM 連線"⟩]) ∧
    (∀ c, getStudentVmConn env.sshKeyPath s.db sid = some c →
      (∀ r, (executeScript (some c) env.exec env.now
            q.check_script q.check_path "check").1 = Except.ok r →
        (verifyHandler env sid qid s).2.db.attempts =
          s.db.attempts ++ [⟨sid, qid, r.code == 0, r.stdout, r.stderr, outputOf r⟩] ∧
        (verifyHandler env sid qid s).1 = ApiResult.verifyOk (r.code == 0) (outputOf r)) ∧
      (∀ e, (executeScript (some c) env.exec env.now
            q.check_script q.check_path "check").1 = Except.error e →
        (verifyHandler env sid qid s).2.db.attempts =
          s.db.attempts ++ [⟨sid, qid, false, "", e, ""⟩] ∧
        (verifyHandler env sid qid s).1 = ApiResult.err 500 ("驗證失敗: " ++ e))) := by
  simp only [verifyHandler, hq]
  cases hc : getStudentVmConn env.sshKeyPath s.db sid with
  | none =>
    refine ⟨by simp [recordAttempt], fun x => rfl, fun _ => rfl, ?_⟩
    intro c hcc
    cases hcc
  | some c =>
    dsimp only []
    cases hex : (executeScript (some c) env.exec env.now
        q.check_script q.check_path "check").1 with
    | ok r0 =>
      refine ⟨by simp [recordAttempt], fun x => rfl, ?_, ?_⟩
      · intro h; cases h
      · intro c' hcc
        injection hcc with hcc'
        subst hcc'
        constructor
        · intro r hr
          rw [hex] at hr
          injection hr with hr'
          subst hr'
          exact ⟨rfl, rfl⟩
        · intro e he
          rw [hex] at he
          cases he
    | error e0 =>
      refine ⟨by simp [recordAttempt], fun x => rfl, ?_, ?_⟩
      · intro h; cases h
      · intro c' hcc
        injection hcc with hcc'
        subst hcc'
        constructor
        · intro r hr
          rw [hex] at hr
          cases hr
        · intro e he
          rw [hex] at he
          injection he with he'
          subst he'
          exact ⟨rfl, rfl⟩

/-- Witness for the amended C6: a concrete passing check records exactly
one attempt with `passed = true` and the captured output, and Progress is
untouched. -/
theorem verify_always_records_one_attempt_witness :
    (verifyHandler verifyEnvW 7 2 sysTwo).2.db.attempts.length =
      sysTwo.db.attempts.length + 1 ∧
    (verifyHandler verifyEnvW 7 2 sysTwo).2.db.progress 7 = sysTwo.db.progress 7 ∧
    (verifyHandler verifyEnvW 7 2 sysTwo).2.db.attempts =
      sysTwo.db.attempts ++ [⟨7, 2, true, "ok", "", "ok"⟩] := by
  have h := verify_always_records_one_attempt verifyEnvW 7 2 sysTwo qB rfl
  refine ⟨h.1, h.2.1 7, ?_⟩
  exact ((h.2.2.2 ⟨"10.0.0.5"⟩ rfl).1 ⟨0, "ok", ""⟩ rfl).1

/-! ## Theorems about `executeScript` and its heredoc transfer -/

theorem splitLinesAux_append (xs : List Char) :
    ∀ acc ys, splitLinesAux (xs ++ '\n' :: ys) acc =
      splitLinesAux xs acc ++ splitLinesAux ys [] := by
  induction xs with
  | nil =>
    intro acc ys
    simp [splitLinesAux]
  | cons c cs ih =>
    intro acc ys
    by_cases hc : c = '\n'
    · subst hc
      simp [splitLinesAux, ih]
    · simp [splitLinesAux, hc, ih]

theorem heredocBody_append_of_not_mem (d : String) (L : List String) (h : d ∉ L) :
    heredocBodyLines d (L ++ [d]) = L := by
  induction L with
  | nil => simp [heredocBodyLines]
  | cons l ls ih =>
    simp only [List.mem_cons, not_or] at h
    rw [List.cons_append]
    simp only [heredocBodyLines]
    rw [if_neg (fun hld => h.1 hld.symm)]
    rw [ih h.2]

theorem writtenLines_of_no_delim (content : String)
    (h : "EOFSCRIPT" ∉ strLines content) : writtenLines content = strLines content := by
  unfold writtenLines
  have h2 : strLines (content ++ "\nEOFSCRIPT") = strLines content ++ ["EOFSCRIPT"] := by
    unfold strLines
    have h3 : (content ++ "\nEOFSCRIPT").toList
        = content.toList ++ '\n' :: "EOFSCRIPT".toList := rfl
    rw [h3, splitLinesAux_append, List.map_append]
    congr 1
  rw [h2]
  exact heredocBody_append_of_not_mem _ _ h

/-- Counterexample for C7 as stated: the temporary path depends only on the
script type and the millisecond timestamp, so two distinct executions at
the same instant receive the same path; and the fixed-delimiter heredoc is
not safe for arbitrary content — content containing an `EOFSCRIPT` line is
truncated at that line. -/
theorem executeScript_unique_safe_cex :
    tempPathOfExec 0 "fault" 5 = tempPathOfExec 1 "fault" 5 ∧
    writtenLines "a\nEOFSCRIPT\nb" = ["a"] ∧
    strLines "a\nEOFSCRIPT\nb" = ["a", "EOFSCRIPT", "b"] ∧
    writtenLines "a\nEOFSCRIPT\nb" ≠ strLines "a\nEOFSCRIPT\nb" := by
  decide

/-- Claim C7, amended: with inline content and a resolvable connection,
`executeScript` issues exactly the four commands: heredoc transfer to
`/tmp/<type>_<ms>.sh`, `chmod +x`, `sudo` execution, and an `rm -f`
cleanup, returning the `sudo` step's result.  The conclusion holds for
*every* SSH oracle `exec`, in particular when `exec` fails the `rm -f`
command — deletion failures are swallowed and the execution result is
still returned.  The transfer reproduces the content faithfully exactly
when no line of the content equals the fixed delimiter `EOFSCRIPT`; the
path is unique only per (script type, millisecond), not per execution. -/
theorem executeScript_inline_spec (c : Conn) (exec : SshExec) (now : Nat)
    (content : String) (sp : Option String) (ty : String)
    (hc : content ≠ "")
    (w ch r : SSHResult)
    (hw : exec (writeCmd (tempPath ty now) content) = Except.ok w)
    (hch : exec ("chmod +x " ++ tempPath ty now) = Except.ok ch)
    (hr : exec ("sudo " ++ tempPath ty now) = Except.ok r) :
    executeScript (some c) exec now (some content) sp ty =
      (Except.ok r,
        [writeCmd (tempPath ty now) content, "chmod +x " ++ tempPath ty now,
         "sudo " ++ tempPath ty now, "rm -f " ++ tempPath ty now]) ∧
    ("EOFSCRIPT" ∉ strLines content → writtenLines content = strLines content) := by
  constructor
  · have htr : jsTruthyStr (some content) = true := by
      simp [jsTruthyStr, hc]
    simp only [executeScript, htr, if_true, Option.getD_some, hw, hch, hr]
  · exact writtenLines_of_no_delim content

/-- An SSH oracle that fails exactly the deletion commands. -/
def rmFailExec : SshExec := fun cmd =>
  if strStartsWith cmd "rm -f " then Except.error "boom" else Except.ok ⟨0, "", ""⟩

/-- Witness for the amended C7: a concrete two-line script is transferred
faithfully and, even under an oracle whose `rm -f` fails, the execution
result is returned with all four commands issued. -/
theorem executeScript_inline_spec_witness :
    executeScript (some ⟨"10.0.0.5"⟩) rmFailExec 5 (some "echo hi\necho bye") none "fault" =
      (Except.ok ⟨0, "", ""⟩,
        [writeCmd (tempPath "fault" 5) "echo hi\necho bye",
         "chmod +x " ++ tempPath "fault" 5, "sudo " ++ tempPath "fault" 5,
         "rm -f " ++ tempPath "fault" 5]) ∧
    rmFailExec ("rm -f " ++ tempPath "fault" 5) = Except.error "boom" ∧
    writtenLines "echo hi\necho bye" = strLines "echo hi\necho bye" := by
  have h := executeScript_inline_spec ⟨"10.0.0.5"⟩ rmFailExec 5 "echo hi\necho bye" none "fault"
    (by decide) ⟨0, "", ""⟩ ⟨0, "", ""⟩ ⟨0, "", ""⟩ rfl rfl rfl
  exact ⟨h.1, rfl, h.2 (by decide)⟩

/-! ## Theorems about the login handler -/

theorem requireRole_roleOf (username : String) :
    requireRoleOk "teacher" (roleOf username) = strIncludes username "teacher" := by
  unfold requireRoleOk roleOf
  by_cases h : strIncludes username "teacher" = true
  · rw [if_pos h, h]
    decide
  · rw [if_neg h]
    have h2 : strIncludes username "teacher" = false := by
      simpa using h
    rw [h2]
    decide

/-- Claim C9: the login handler derives the role solely from the username:
whenever login answers a session, its username is the supplied one and its
role is `teacher` iff the username contains the substring `teacher`
(otherwise `student`); an unknown username is auto-created with exactly
that role; the role invariant is preserved; and the session passes the
`teacher` role gate exactly when the username contains `teacher` — so any
client obtains teacher privileges by picking such a username.  (The
hypothesis states that every stored user was created by this same rule,
which holds since login is the only user-creating path.) -/
theorem login_role_from_username (username : String) (s : Sys)
    (hinv : ∀ u, u ∈ s.db.users → u.role = roleOf u.username)
    (hne : username ≠ "") :
    (∀ i r un, (loginHandler username s).1 = ApiResult.loginOk i r un →
      un = username ∧ r = roleOf username ∧
      (requireRoleOk "teacher" r = true ↔ strIncludes username "teacher" = true)) ∧
    (s.db.users.find? (fun u => u.username == username) = none →
      (loginHandler username s).2.db.users =
        s.db.users ++ [⟨s.db.nextUserId, username, roleOf username⟩]) ∧
    (∀ u, u ∈ (loginHandler username s).2.db.users → u.role = roleOf u.username) := by
  simp only [loginHandler, if_neg hne]
  cases hf : s.db.users.find? (fun u => u.username == username) with
  | some u =>
    have hu : u ∈ s.db.users := List.mem_of_find?_eq_some hf
    have hp := List.find?_some hf
    have huser : u.username = username := by simpa using hp
    refine ⟨?_, ?_, ?_⟩
    · intro i r un h
      injection h with hi hr hun
      subst hr
      subst hun
      refine ⟨huser, ?_, ?_⟩
      · rw [hinv u hu, huser]
      · rw [hinv u hu, huser, requireRole_roleOf]
    · intro h
      cases h
    · intro u' hu'
      exact hinv u' hu'
  | none =>
    refine ⟨?_, ?_, ?_⟩
    · intro i r un h
      injection h with hi hr hun
      subst hr
      subst hun
      refine ⟨rfl, rfl, ?_⟩
      rw [requireRole_roleOf]
    · intro _
      rfl
    · intro u' hu'
      rcases List.mem_append.mp hu' with h | h
      · exact hinv u' h
      · simp only [List.mem_singleton] at h
        subst h
        rfl

/-- Witness for C9: logging in with the fresh username `xteachery` creates
a user with role `teacher` and that session passes the teacher gate. -/
theorem login_role_from_username_witness :
    (loginHandler "xteachery" sysTwo).2.db.users =
      sysTwo.db.users ++ [⟨sysTwo.db.nextUserId, "xteachery", roleOf "xteachery"⟩] ∧
    roleOf "xteachery" = "teacher" ∧
    (requireRoleOk "teacher" (roleOf "xteachery") = true ↔
      strIncludes "xteachery" "teacher" = true) ∧
    strIncludes "xteachery" "teacher" = true := by
  have h := login_role_from_username "xteachery" sysTwo
    (fun u hu => by cases hu) (by decide)
  exact ⟨h.2.1 rfl, by decide, (h.1 1 (roleOf "xteachery") "xteachery" rfl).2.2, by decide⟩

end Meow
